import Mathlib

/-!
# Verification of the scrapeMe image-metadata crawler

Shallow embedding of the pure logic of `src/scrapeImageDetailsCrawler.ts`
(the CLI variant) and `src/unnamed/part_000` (the Express server variant):
URL normalisation and internal-link filtering, the visited-page sequences,
the HEAD-request size prober, CSV serialisation, and the server's input
validation.  Browser automation and actual network / filesystem effects are
modelled by explicit data: the network delivers a `HeadEvent`, a file write
is an `Option String` (`none` = no write, `some c` = a write with content
`c`).
-/

set_option autoImplicit false

namespace ScrapeMe

/-! ## Character-list string utilities

`String` operations of the JavaScript runtime (`includes`, `startsWith`,
`trim`, `Array.join`) are modelled by structurally recursive functions on
`List Char`, so that every concrete instance reduces in the kernel. -/

/-- `startsWithL n h` : the char list `h` starts with the char list `n`
(JavaScript `h.startsWith(n)` with arguments flipped). -/
def startsWithL : List Char → List Char → Bool
  | [], _ => true
  | _ :: _, [] => false
  | a :: as, b :: bs => a == b && startsWithL as bs

/-- `isSubChain n h` : `n` occurs contiguously inside `h`. -/
def isSubChain (n : List Char) : List Char → Bool
  | [] => n.isEmpty
  | b :: bs => startsWithL n (b :: bs) || isSubChain n bs

/-- JavaScript `s.includes(sub)`. -/
def strIncludes (s sub : String) : Bool := isSubChain sub.data s.data

/-- JavaScript `s.startsWith(p)`. -/
def jsStartsWith (s p : String) : Bool := startsWithL p.data s.data

/-- JavaScript `Array.prototype.join(sep)` on a list of strings. -/
def joinSep (sep : String) : List String → String
  | [] => ""
  | [x] => x
  | x :: y :: xs => x ++ sep ++ joinSep sep (y :: xs)

/-- Whitespace recognised by the model of JavaScript `String.prototype.trim`
(ASCII subset). -/
def isJsSpace (c : Char) : Bool :=
  c == ' ' || c == '\t' || c == '\n' || c == '\r'

/-- Model of JavaScript `s.trim()`: strip leading and trailing whitespace. -/
def jsTrim (s : String) : String :=
  String.mk (((s.data.dropWhile isJsSpace).reverse.dropWhile isJsSpace).reverse)

/-! ## URL model

The source relies on the WHATWG `URL` class of Node's `url` module
(`new URL(input)`, `new URL(input, base)`, `.origin`, `.hostname`,
`.href`).  The model below covers the fragment of that behaviour the
crawler exercises: absolute hierarchical URLs `scheme://host[:port]path`,
and resolution of an input against a base that is itself an origin string.
Simplifications (noted, not load-bearing for the claims): no default-port
or case normalisation, no percent-encoding, no host-character validation
beyond the structural splits, and only `"://"`-carrying inputs are treated
as absolute. -/

/-- Split a char list at the first occurrence of `"://"`;
`none` when no `"://"` occurs. -/
def splitAtScheme : List Char → Option (List Char × List Char)
  | ':' :: '/' :: '/' :: rest => some ([], rest)
  | c :: rest => (splitAtScheme rest).map (fun p => (c :: p.1, p.2))
  | [] => none

/-- Split a char list at the first occurrence of the character `t`:
the part before it, and `some` remainder after it (or `none` if absent). -/
def splitFirstChar (t : Char) : List Char → List Char × Option (List Char)
  | [] => ([], none)
  | c :: rest =>
    if c == t then ([], some rest)
    else
      let p := splitFirstChar t rest
      (c :: p.1, p.2)

/-- Characters allowed in a URL scheme. -/
def isSchemeChar (c : Char) : Bool :=
  c.isAlpha || c.isDigit || c == '+' || c == '-' || c == '.'

/-- A parsed URL: scheme (without `"://"`), host, port (`""` when absent)
and path (always beginning with `'/'`; an empty path is normalised to
`"/"`, as WHATWG does for hierarchical URLs). -/
structure URLRec where
  scheme : String
  host : String
  port : String
  path : String
deriving Repr, DecidableEq

/-- Model of `new URL(s)` on an absolute hierarchical URL string.
Fails (`none`, modelling the thrown `TypeError`) when `s` carries no
`"://"`, when the scheme is empty or has an invalid character, when the
host is empty, or when the port part is not all digits. -/
def parseURL (s : String) : Option URLRec :=
  match splitAtScheme s.data with
  | none => none
  | some (sch, rest) =>
    if sch.isEmpty || !sch.all isSchemeChar then none
    else
      let ap := splitFirstChar '/' rest
      let path : String := String.mk ('/' :: ap.2.getD [])
      match splitFirstChar ':' ap.1 with
      | (hostChars, none) =>
        if hostChars.isEmpty then none
        else some ⟨String.mk sch, String.mk hostChars, "", path⟩
      | (hostChars, some portChars) =>
        if hostChars.isEmpty || !portChars.all Char.isDigit then none
        else some ⟨String.mk sch, String.mk hostChars, String.mk portChars, path⟩

/-- `url.origin`: `scheme://host` with `:port` appended when present. -/
def urlOrigin (u : URLRec) : String :=
  u.scheme ++ "://" ++ u.host ++ (if u.port = "" then "" else ":" ++ u.port)

/-- `url.href` in this model: origin followed by path. -/
def urlHref (u : URLRec) : String := urlOrigin u ++ u.path

/-- Model of `new URL(href, base)` as the crawler uses it, where `base` is
always an origin string (`new URL(root).origin`): an input carrying
`"://"` is parsed absolutely; `"//"`-led inputs are scheme-relative;
anything else is a path resolved against the base origin. -/
def resolveURL (href : String) (base : String) : Option URLRec :=
  if strIncludes href "://" then parseURL href
  else if jsStartsWith href "//" then
    match parseURL base with
    | none => none
    | some b => parseURL (b.scheme ++ ":" ++ href)
  else
    match parseURL base with
    | none => none
    | some b =>
      if jsStartsWith href "/" then some { b with path := href }
      else some { b with path := "/" ++ href }

/-! ## Link collection

`normalizeAndFilterLinks` (CLI, `src/scrapeImageDetailsCrawler.ts`
lines 98–120) and the filtering tail of `getInternalLinks` (server,
`src/unnamed/part_000` lines 88–109): resolve each anchor href against the
root's origin, keep same-origin results, keep hrefs containing the root
hostname, deduplicate with a seen-set, take the first 10.  A failing
`new URL(root)` in the preamble is modelled as `none` (the thrown error). -/

/-- One step of the `.map` callback shared by both variants:
`new URL(href, baseUrl)` inside `try`, then
`fullUrl.origin === baseUrl ? fullUrl.href : null`, with `catch → null`. -/
def linkStep (baseUrl : String) (href : String) : Option String :=
  match resolveURL href baseUrl with
  | none => none
  | some u => if urlOrigin u = baseUrl then some (urlHref u) else none

/-- The CLI `.map` callback, which additionally starts with
`if (!href) return null;` — dropping `null` and the empty string. -/
def cliStep (baseUrl : String) : Option String → Option String
  | none => none
  | some href => if href = "" then none else linkStep baseUrl href

/-- The seen-set `.filter` both variants use for deduplication: keep an
element iff it is not in `seen`, adding it as we pass. -/
def dedupFirst (seen : List String) : List String → List String
  | [] => []
  | x :: xs =>
    if x ∈ seen then dedupFirst seen xs else x :: dedupFirst (x :: seen) xs

/-- CLI `normalizeAndFilterLinks(links, root)`.  `links` carries
`getAttribute('href')` results (`string | null`). -/
def normalizeAndFilterLinks (links : List (Option String)) (root : String) :
    Option (List String) :=
  match parseURL root with
  | none => none
  | some rootU =>
    some ((dedupFirst []
      ((links.filterMap (cliStep (urlOrigin rootU))).filter
        (fun h => strIncludes h rootU.host))).take 10)

/-- Server `getInternalLinks` filtering tail; its `rawLinks` were already
filtered to strings by the `$$eval` callback, and its `.map` callback has
no `!href` guard. -/
def getInternalLinks (links : List String) (root : String) :
    Option (List String) :=
  match parseURL root with
  | none => none
  | some rootU =>
    some ((dedupFirst []
      ((links.filterMap (linkStep (urlOrigin rootU))).filter
        (fun h => strIncludes h rootU.host))).take 10)

/-- CLI link collection with the hostname-substring `.filter` removed
(for the redundancy claim). -/
def normalizeAndFilterLinksNoHostCheck (links : List (Option String))
    (root : String) : Option (List String) :=
  match parseURL root with
  | none => none
  | some rootU =>
    some ((dedupFirst [] (links.filterMap (cliStep (urlOrigin rootU)))).take 10)

/-- Server link collection with the hostname-substring `.filter` removed
(for the redundancy claim). -/
def getInternalLinksNoHostCheck (links : List String) (root : String) :
    Option (List String) :=
  match parseURL root with
  | none => none
  | some rootU =>
    some ((dedupFirst [] (links.filterMap (linkStep (urlOrigin rootU)))).take 10)

/-! ## Visited-page sequences -/

/-- The CLI main IIFE (lines 150–160): `pagesToVisit = [root, ...links]`
iterated under a `visitedPages` seen-set; the value is the sequence of
pages actually scraped. -/
def cliVisitedPages (root : String) (rawLinks : List (Option String)) :
    Option (List String) :=
  (normalizeAndFilterLinks rawLinks root).map
    (fun ls => dedupFirst [] (root :: ls))

/-- The server `POST /scrape` handler (lines 124–128):
`pagesToVisit = [finalUrl, ...links]` iterated with **no** seen-set, so
the value is the page sequence itself. -/
def serverPagesToVisit (rootUrl : String) (rawLinks : List String) :
    Option (List String) :=
  (getInternalLinks rawLinks rootUrl).map (fun ls => rootUrl :: ls)

/-! ## Size prober

`getFileSizeInKB` (both variants, identical): the network interaction is
an oracle `HeadEvent` saying which event the request delivers.  The code
registers a response callback and an `'error'` listener; it registers no
`'timeout'` listener and never destroys the request, so a delivered
`socketTimeout` event fires no handler and settles nothing (`pending`).
The `Content-Length` header is modelled as its decimal value
(`parseInt(length, 10)` on the digit string the header carries). -/

inductive HeadEvent where
  | response (contentLength : Option Nat)
  | socketError
  | socketTimeout
deriving Repr, DecidableEq

inductive ProbeOutcome where
  | resolved (v : Option Nat)
  | pending
deriving Repr, DecidableEq

/-- `length ? Math.round(parseInt(length, 10) / 1024) : null`;
`Math.round(n / 1024)` on a nonnegative integer is `(n + 512) / 1024`
in integer division. -/
def sizeFromResponse : Option Nat → Option Nat
  | none => none
  | some n => some ((n + 512) / 1024)

/-- `getFileSizeInKB(imageUrl)` under a delivered event: URL parse failure
hits the `catch` (`resolve(null)`); a response resolves via
`sizeFromResponse`; an `'error'` event resolves `null`; a `'timeout'`
event has no registered listener. -/
def getFileSizeInKB (imageUrl : String) (ev : HeadEvent) : ProbeOutcome :=
  match parseURL imageUrl with
  | none => .resolved none
  | some _ =>
    match ev with
    | .response cl => .resolved (sizeFromResponse cl)
    | .socketError => .resolved none
    | .socketTimeout => .pending

/-! ## CSV serialisation -/

structure ImageInfo where
  url : String
  width : Nat
  height : Nat
  sizeKB : Option Nat
  sourcePage : String
deriving Repr, DecidableEq

/-- One CSV row:
`` `${img.url},${img.width},${img.height},${img.sizeKB ?? 'Unknown'},${img.sourcePage}` ``. -/
def csvRow (img : ImageInfo) : String :=
  img.url ++ "," ++ toString img.width ++ "," ++ toString img.height ++ ","
    ++ (match img.sizeKB with | some n => toString n | none => "Unknown")
    ++ "," ++ img.sourcePage

/-- CLI `saveImageDataToCSV` (lines 81–96): early return (`none`, no
write) on an empty record list, else a write of header + joined rows. -/
def saveImageDataToCSV (images : List ImageInfo) : Option String :=
  if images.length = 0 then none
  else
    some ("ImageURL,Width,Height,SizeKB,SourcePage\n"
      ++ joinSep "\n" (images.map csvRow))

/-- The CSV content the server handler builds (lines 131–134). -/
def serverCsvContent (images : List ImageInfo) : String :=
  "ImageURL,Width,Height,SizeKB,SourcePage\n"
    ++ joinSep "\n" (images.map csvRow)

/-- The server handler's `fs.writeFileSync` is unconditional: a write
always happens, whatever the record list. -/
def serverCsvWrite (images : List ImageInfo) : Option String :=
  some (serverCsvContent images)

/-! ## Server request validation -/

/-- `` targetUrl.startsWith('http') ? targetUrl : `https://${targetUrl}` ``
(line 116). -/
def finalUrl (targetUrl : String) : String :=
  if jsStartsWith targetUrl "http" then targetUrl
  else "https://" ++ targetUrl

/-- The `POST /scrape` entry checks (lines 112–116):
`req.body.url?.trim()`, `400` when missing or falsy after trim, else the
crawl proceeds from `finalUrl` of the trimmed value. -/
def handleScrape (urlField : Option String) : Except Nat String :=
  match urlField with
  | none => .error 400
  | some raw =>
    let targetUrl := jsTrim raw
    if targetUrl = "" then .error 400 else .ok (finalUrl targetUrl)

/-- `h` is the `href` of a URL obtained by resolving one of the collected
anchor hrefs against `base` and whose origin is exactly `base`. -/
def fromSameOrigin (base : String) (hrefs : List String) (h : String) : Prop :=
  ∃ href u, href ∈ hrefs ∧ resolveURL href base = some u
    ∧ urlOrigin u = base ∧ h = urlHref u

/-! ## Helper lemmas: substring occurrence -/

theorem startsWithL_append (n b : List Char) : startsWithL n (n ++ b) = true := by
  induction n with
  | nil => rfl
  | cons a as ih => simp [startsWithL, ih]

theorem isSubChain_of_startsWithL {n h : List Char}
    (hs : startsWithL n h = true) : isSubChain n h = true := by
  cases h with
  | nil =>
    cases n with
    | nil => rfl
    | cons a as => simp [startsWithL] at hs
  | cons b bs => simp [isSubChain, hs]

theorem isSubChain_append_left {n t : List Char} (a : List Char)
    (ht : isSubChain n t = true) : isSubChain n (a ++ t) = true := by
  induction a with
  | nil => simpa using ht
  | cons c cs ih => simp [isSubChain, ih]

/-- `s` occurs inside `a ++ s ++ b`. -/
theorem strIncludes_middle (a s b : String) : strIncludes (a ++ s ++ b) s = true := by
  unfold strIncludes
  have h1 : (a ++ s ++ b).data = a.data ++ (s.data ++ b.data) := by
    simp [String.data_append]
  rw [h1]
  exact isSubChain_append_left a.data
    (isSubChain_of_startsWithL (startsWithL_append s.data b.data))

/-- Any URL whose origin equals the root's origin has the root's hostname
as a substring of its `href` — the reason the hostname-substring filter
is redundant. -/
theorem host_substring_of_origin_eq {rootU u : URLRec}
    (h : urlOrigin u = urlOrigin rootU) :
    strIncludes (urlHref u) rootU.host = true := by
  unfold urlHref
  rw [h]
  show strIncludes
    (rootU.scheme ++ "://" ++ rootU.host
      ++ (if rootU.port = "" then "" else ":" ++ rootU.port) ++ u.path)
    rootU.host = true
  rw [String.append_assoc (rootU.scheme ++ "://" ++ rootU.host)]
  exact strIncludes_middle (rootU.scheme ++ "://") rootU.host _

/-! ## Helper lemmas: the seen-set deduplicating filter -/

theorem dedupFirst_sublist (seen l : List String) :
    (dedupFirst seen l).Sublist l := by
  induction l generalizing seen with
  | nil => simp [dedupFirst]
  | cons x xs ih =>
    simp only [dedupFirst]
    split
    · exact (ih seen).cons x
    · exact (ih (x :: seen)).cons₂ x

theorem not_mem_seen_of_mem_dedupFirst {x : String} {seen l : List String}
    (hx : x ∈ dedupFirst seen l) : x ∉ seen := by
  induction l generalizing seen with
  | nil => simp [dedupFirst] at hx
  | cons y ys ih =>
    simp only [dedupFirst] at hx
    split at hx
    · exact ih hx
    · rcases List.mem_cons.mp hx with rfl | hx'
      · assumption
      · intro hxs
        exact (ih hx') (List.mem_cons_of_mem y hxs)

theorem mem_dedupFirst_of_mem {x : String} {seen l : List String}
    (hl : x ∈ l) (hs : x ∉ seen) : x ∈ dedupFirst seen l := by
  induction l generalizing seen with
  | nil => cases hl
  | cons y ys ih =>
    simp only [dedupFirst]
    split
    · rcases List.mem_cons.mp hl with rfl | hy
      · exact absurd (by assumption) hs
      · exact ih hy hs
    · by_cases hxy : x = y
      · subst hxy
        exact List.mem_cons_self x _
      · rcases List.mem_cons.mp hl with rfl | hy
        · exact absurd rfl hxy
        · exact List.mem_cons_of_mem y
            (ih hy (by simp [List.mem_cons, hxy, hs]))

theorem dedupFirst_nodup (seen l : List String) :
    (dedupFirst seen l).Nodup := by
  induction l generalizing seen with
  | nil => simp [dedupFirst]
  | cons y ys ih =>
    simp only [dedupFirst]
    split
    · exact ih seen
    · refine List.nodup_cons.mpr ⟨?_, ih (y :: seen)⟩
      intro hmem
      exact (not_mem_seen_of_mem_dedupFirst hmem) (List.mem_cons_self y seen)

/-! ## Helper lemmas: the per-href mapping steps -/

theorem linkStep_eq_some {base href h : String}
    (hs : linkStep base href = some h) :
    ∃ u : URLRec, resolveURL href base = some u
      ∧ urlOrigin u = base ∧ h = urlHref u := by
  unfold linkStep at hs
  cases hr : resolveURL href base with
  | none => rw [hr] at hs; cases hs
  | some u =>
    rw [hr] at hs
    have hs' : (if urlOrigin u = base then some (urlHref u) else none) = some h := hs
    by_cases ho : urlOrigin u = base
    · rw [if_pos ho] at hs'
      exact ⟨u, rfl, ho, (Option.some.inj hs').symm⟩
    · rw [if_neg ho] at hs'; cases hs'

theorem cliStep_eq_some {base : String} {a : Option String} {h : String}
    (hs : cliStep base a = some h) :
    ∃ href, a = some href ∧ href ≠ "" ∧ linkStep base href = some h := by
  cases a with
  | none => cases hs
  | some href =>
    simp only [cliStep] at hs
    by_cases he : href = ""
    · rw [if_pos he] at hs; cases hs
    · rw [if_neg he] at hs
      exact ⟨href, rfl, he, hs⟩

/-- In the CLI pipeline, every mapped link contains the root hostname, so
the hostname-substring filter keeps everything. -/
theorem filter_host_redundant_cli (links : List (Option String)) (rootU : URLRec) :
    (links.filterMap (cliStep (urlOrigin rootU))).filter
        (fun h => strIncludes h rootU.host)
      = links.filterMap (cliStep (urlOrigin rootU)) := by
  apply List.filter_eq_self.mpr
  intro h hmem
  obtain ⟨a, _, hstep⟩ := List.mem_filterMap.mp hmem
  obtain ⟨href, _, _, hls⟩ := cliStep_eq_some hstep
  obtain ⟨u, _, ho, rfl⟩ := linkStep_eq_some hls
  exact host_substring_of_origin_eq ho

/-- Same redundancy for the server pipeline. -/
theorem filter_host_redundant_server (links : List String) (rootU : URLRec) :
    (links.filterMap (linkStep (urlOrigin rootU))).filter
        (fun h => strIncludes h rootU.host)
      = links.filterMap (linkStep (urlOrigin rootU)) := by
  apply List.filter_eq_self.mpr
  intro h hmem
  obtain ⟨a, _, hstep⟩ := List.mem_filterMap.mp hmem
  obtain ⟨u, _, ho, rfl⟩ := linkStep_eq_some hstep
  exact host_substring_of_origin_eq ho

/-! ## Claim theorems -/

/-- C8: for every input list of hrefs and every root URL, the link
collector with the hostname-substring filter removed returns exactly the
same output as the full pipeline, in both the CLI and the server variant:
every URL passing the exact-origin check contains the root hostname as a
substring, so the substring filter changes nothing. -/
theorem hostCheck_redundant :
    (∀ (links : List (Option String)) (root : String),
      normalizeAndFilterLinksNoHostCheck links root
        = normalizeAndFilterLinks links root)
    ∧ (∀ (links : List String) (root : String),
      getInternalLinksNoHostCheck links root = getInternalLinks links root) := by
  constructor
  · intro links root
    unfold normalizeAndFilterLinksNoHostCheck normalizeAndFilterLinks
    simp only [filter_host_redundant_cli]
  · intro links root
    unfold getInternalLinksNoHostCheck getInternalLinks
    simp only [filter_host_redundant_server]

/-- C3: the CLI link collector resolves each href against the root origin,
silently drops hrefs that fail to parse, deduplicates the surviving
absolute URLs by exact string equality preserving first-seen order
(the output is duplicate-free, a subsequence of the resolved survivors,
and omits no survivor when at most 10 survive), and returns at most 10
entries; a malformed href (`"http://"`, empty host) contributes nothing. -/
theorem collector_contract :
    (∀ (links : List (Option String)) (root : String) (rootU : URLRec)
        (out : List String),
      parseURL root = some rootU →
      normalizeAndFilterLinks links root = some out →
      out.length ≤ 10 ∧ out.Nodup
        ∧ out.Sublist (links.filterMap (cliStep (urlOrigin rootU)))
        ∧ ((links.filterMap (cliStep (urlOrigin rootU))).length ≤ 10 →
            ∀ x ∈ links.filterMap (cliStep (urlOrigin rootU)), x ∈ out))
    ∧ normalizeAndFilterLinks [some "http://"] "https://example.com/" = some [] := by
  constructor
  · intro links root rootU out hp hout
    simp only [normalizeAndFilterLinks, hp, filter_host_redundant_cli,
      Option.some.injEq] at hout
    subst hout
    refine ⟨List.length_take_le 10 _, ?_, ?_, ?_⟩
    · exact List.Nodup.sublist (List.take_sublist 10 _) (dedupFirst_nodup [] _)
    · exact (List.take_sublist 10 _).trans (dedupFirst_sublist [] _)
    · intro hlen x hx
      have h10 : (dedupFirst [] (links.filterMap (cliStep (urlOrigin rootU)))).length ≤ 10 :=
        le_trans (List.Sublist.length_le (dedupFirst_sublist [] _)) hlen
      rw [List.take_of_length_le h10]
      exact mem_dedupFirst_of_mem hx (List.not_mem_nil x)
  · decide

/-- C4: every URL in the link collector's output (either variant) comes
from resolving a collected href against the root origin and has exactly
the root's origin; concretely, `"/about"` on root `https://example.com/`
resolves to `https://example.com/about` and is retained, while
`https://other.com/x` is dropped. -/
theorem same_origin_only :
    (∀ (links : List (Option String)) (root : String) (rootU : URLRec)
        (out : List String),
      parseURL root = some rootU →
      normalizeAndFilterLinks links root = some out →
      ∀ h ∈ out, fromSameOrigin (urlOrigin rootU) links.reduceOption h)
    ∧ (∀ (links : List String) (root : String) (rootU : URLRec)
        (out : List String),
      parseURL root = some rootU →
      getInternalLinks links root = some out →
      ∀ h ∈ out, fromSameOrigin (urlOrigin rootU) links h)
    ∧ normalizeAndFilterLinks [some "/about"] "https://example.com/"
        = some ["https://example.com/about"]
    ∧ normalizeAndFilterLinks [some "https://other.com/x"] "https://example.com/"
        = some [] := by
  refine ⟨?_, ?_, by decide, by decide⟩
  · intro links root rootU out hp hout h hmem
    simp only [normalizeAndFilterLinks, hp, Option.some.injEq] at hout
    subst hout
    have hm1 : h ∈ dedupFirst []
        ((links.filterMap (cliStep (urlOrigin rootU))).filter
          (fun s => strIncludes s rootU.host)) :=
      (List.take_sublist 10 _).subset hmem
    have hm2 := (List.mem_filter.mp
      ((dedupFirst_sublist [] _).subset hm1)).1
    obtain ⟨a, ha, hstep⟩ := List.mem_filterMap.mp hm2
    obtain ⟨href, rfl, _, hls⟩ := cliStep_eq_some hstep
    obtain ⟨u, hr, ho, rfl⟩ := linkStep_eq_some hls
    exact ⟨href, u, List.reduceOption_mem_iff.mpr ha, hr, ho, rfl⟩
  · intro links root rootU out hp hout h hmem
    simp only [getInternalLinks, hp, Option.some.injEq] at hout
    subst hout
    have hm1 : h ∈ dedupFirst []
        ((links.filterMap (linkStep (urlOrigin rootU))).filter
          (fun s => strIncludes s rootU.host)) :=
      (List.take_sublist 10 _).subset hmem
    have hm2 := (List.mem_filter.mp
      ((dedupFirst_sublist [] _).subset hm1)).1
    obtain ⟨href, ha, hstep⟩ := List.mem_filterMap.mp hm2
    obtain ⟨u, hr, ho, rfl⟩ := linkStep_eq_some hstep
    exact ⟨href, u, ha, hr, ho, rfl⟩

/-- C2 (amended): the CLI crawl, which iterates `pagesToVisit` under the
`visitedPages` seen-set, visits at most 11 pages with no URL twice; the
server crawl iterates `pagesToVisit` with no seen-set, so it visits at
most 11 pages and its collected links are mutually distinct, but the root
itself may reappear among them and be visited twice. -/
theorem visited_pages_amended :
    (∀ (root : String) (raw : List (Option String)) (out : List String),
      cliVisitedPages root raw = some out → out.length ≤ 11 ∧ out.Nodup)
    ∧ (∀ (rootUrl : String) (raw : List String) (out : List String),
      serverPagesToVisit rootUrl raw = some out →
        out.length ≤ 11 ∧ out.tail.Nodup) := by
  constructor
  · intro root raw out hout
    unfold cliVisitedPages at hout
    obtain ⟨ls, hls, hmap⟩ := Option.map_eq_some'.mp hout
    subst hmap
    cases hp : parseURL root with
    | none => simp [normalizeAndFilterLinks, hp] at hls
    | some rootU =>
      simp only [normalizeAndFilterLinks, hp, Option.some.injEq] at hls
      subst hls
      constructor
      · calc (dedupFirst [] (root :: List.take 10 _)).length
            ≤ (root :: List.take 10 _).length :=
              List.Sublist.length_le (dedupFirst_sublist _ _)
          _ = (List.take 10 _).length + 1 := rfl
          _ ≤ 11 := Nat.succ_le_succ (List.length_take_le 10 _)
      · exact dedupFirst_nodup _ _
  · intro rootUrl raw out hout
    unfold serverPagesToVisit at hout
    obtain ⟨ls, hls, hmap⟩ := Option.map_eq_some'.mp hout
    subst hmap
    cases hp : parseURL rootUrl with
    | none => simp [getInternalLinks, hp] at hls
    | some rootU =>
      simp only [getInternalLinks, hp, Option.some.injEq] at hls
      subst hls
      constructor
      · exact Nat.succ_le_succ (List.length_take_le 10 _)
      · exact List.Nodup.sublist (List.take_sublist 10 _) (dedupFirst_nodup [] _)

/-- C2 (counterexample): in the server variant there is no dedup across
the root and the collected links: when the root page links to itself
(`href="/"` on root `https://example.com/`), the visited-page sequence
contains `https://example.com/` twice. -/
theorem visited_pages_cex :
    serverPagesToVisit "https://example.com/" ["/"]
      = some ["https://example.com/", "https://example.com/"]
    ∧ ¬ (["https://example.com/", "https://example.com/"] : List String).Nodup := by
  constructor
  · decide
  · decide

/-- C5: for every non-empty record list, the CLI CSV text is the fixed
header line followed by one comma-joined row per record, rows in input
order (the joined lines are the header consed onto the row of each record
in order), with an absent `sizeKB` rendered as the literal `Unknown`. -/
theorem csv_format :
    ∀ images : List ImageInfo, images ≠ [] →
      saveImageDataToCSV images
        = some (joinSep "\n"
            ("ImageURL,Width,Height,SizeKB,SourcePage" :: images.map csvRow))
      ∧ (images.map csvRow).length = images.length
      ∧ ∀ img : ImageInfo, img.sizeKB = none →
          csvRow img = joinSep ","
            [img.url, toString img.width, toString img.height, "Unknown",
              img.sourcePage] := by
  intro images hne
  obtain ⟨i, is, rfl⟩ := List.exists_cons_of_ne_nil hne
  refine ⟨?_, List.length_map _ _, ?_⟩
  · have hh : ("ImageURL,Width,Height,SizeKB,SourcePage\n" : String)
        = "ImageURL,Width,Height,SizeKB,SourcePage" ++ "\n" := by decide
    simp only [saveImageDataToCSV, List.length_cons, List.map_cons, joinSep, hh]
    rfl
  · intro img h
    refine String.ext ?_
    simp only [csvRow, h, joinSep, String.data_append, List.append_assoc]

/-- C6 (amended): on an empty record list the CLI `saveImageDataToCSV`
returns early and performs no write, but the server handler's write is
unconditional: a crawl yielding zero records still writes a header-only
CSV file. -/
theorem empty_csv_amended :
    ∀ images : List ImageInfo, images.length = 0 →
      saveImageDataToCSV images = none
      ∧ serverCsvWrite images
          = some "ImageURL,Width,Height,SizeKB,SourcePage\n" := by
  intro images h
  obtain rfl := List.length_eq_zero.mp h
  exact ⟨rfl, rfl⟩

/-- C6 (counterexample): the server variant does write on an empty record
list — a header-only file — contradicting skip-when-empty for every crawl
run. -/
theorem empty_csv_cex :
    serverCsvWrite [] ≠ none
    ∧ serverCsvWrite [] = some "ImageURL,Width,Height,SizeKB,SourcePage\n" := by
  constructor
  · decide
  · rfl

/-- C7: for a delivered HEAD response on a well-formed image URL, an
absent `Content-Length` resolves to the unknown marker; a present value
`n` resolves to the kilobyte count nearest to `n / 1024` (ties rounded
up), and `Content-Length: 51200` yields exactly 50. -/
theorem size_probe :
    ∀ (url : String) (u : URLRec), parseURL url = some u →
      getFileSizeInKB url (.response none) = .resolved none
      ∧ (∀ n k, getFileSizeInKB url (.response (some n)) = .resolved (some k) →
          1024 * k ≤ n + 512 ∧ n + 512 < 1024 * k + 1024)
      ∧ getFileSizeInKB url (.response (some 51200)) = .resolved (some 50) := by
  intro url u hp
  refine ⟨?_, ?_, ?_⟩
  · simp [getFileSizeInKB, hp, sizeFromResponse]
  · intro n k hk
    simp only [getFileSizeInKB, hp, sizeFromResponse,
      ProbeOutcome.resolved.injEq, Option.some.injEq] at hk
    subst hk
    have h1 := Nat.div_add_mod (n + 512) 1024
    have h2 := Nat.mod_lt (n + 512) (show 0 < 1024 by norm_num)
    omega
  · simp only [getFileSizeInKB, hp, sizeFromResponse]

/-- C1 (code evaluated at the failing input): `getFileSizeInKB` registers
a response callback and an `'error'` listener but no `'timeout'` listener
and never destroys the request, so a delivered socket-timeout event
settles nothing — the promise stays pending; error events and malformed
URLs do resolve to the unknown marker. -/
theorem probe_timeout_eval :
    getFileSizeInKB "https://example.com/img.png" HeadEvent.socketTimeout
      = ProbeOutcome.pending
    ∧ getFileSizeInKB "https://example.com/img.png" HeadEvent.socketError
      = ProbeOutcome.resolved none
    ∧ getFileSizeInKB "not-a-url" HeadEvent.socketTimeout
      = ProbeOutcome.resolved none := by
  refine ⟨?_, ?_, ?_⟩ <;> decide

/-- C9 (amended): the server uses the supplied value unchanged exactly
when it starts with the literal `"http"` — even a scheme-less value such
as `httpbin.org` — and otherwise prepends `https://`, even to a value
that already carries a non-http scheme. -/
theorem scheme_default_amended :
    ∀ t : String,
      (jsStartsWith t "http" = true → finalUrl t = t)
      ∧ (jsStartsWith t "http" = false →
          finalUrl t = "https://" ++ t
          ∧ jsStartsWith (finalUrl t) "https://" = true) := by
  intro t
  constructor
  · intro h; simp [finalUrl, h]
  · intro h
    have hf : finalUrl t = "https://" ++ t := by simp [finalUrl, h]
    refine ⟨hf, ?_⟩
    rw [hf]
    unfold jsStartsWith
    rw [String.data_append]
    exact startsWithL_append _ _

/-- C9 (counterexample): `httpbin.org` omits its scheme (no `"://"`) yet
is used unchanged rather than prefixed with `https://`, because it starts
with the literal `"http"`; conversely `ftp://example.com` carries a
scheme yet is not used unchanged. -/
theorem scheme_default_cex :
    strIncludes "httpbin.org" "://" = false
    ∧ finalUrl "httpbin.org" = "httpbin.org"
    ∧ finalUrl "httpbin.org" ≠ "https://" ++ "httpbin.org"
    ∧ strIncludes "ftp://example.com" "://" = true
    ∧ finalUrl "ftp://example.com" ≠ "ftp://example.com" := by
  refine ⟨?_, ?_, ?_, ?_, ?_⟩ <;> decide

/-- C10: a `POST /scrape` whose `url` field is absent, or empty or
whitespace-only after the trim, gets HTTP 400 before any crawl work; the
field is trimmed before the emptiness check, and a surviving trimmed
value is exactly what the crawl uses (through `finalUrl`). -/
theorem scrape_validation :
    handleScrape none = .error 400
    ∧ (∀ s, jsTrim s = "" → handleScrape (some s) = .error 400)
    ∧ (∀ s, (∀ c ∈ s.data, isJsSpace c = true) →
        handleScrape (some s) = .error 400)
    ∧ (∀ s, jsTrim s ≠ "" →
        handleScrape (some s) = .ok (finalUrl (jsTrim s))) := by
  refine ⟨rfl, ?_, ?_, ?_⟩
  · intro s h
    simp [handleScrape, h]
  · intro s h
    have ht : jsTrim s = "" := by
      unfold jsTrim
      rw [List.dropWhile_eq_nil_iff.mpr h]
      rfl
    simp [handleScrape, ht]
  · intro s h
    simp [handleScrape, h]

/-! ## Witnesses -/

/-- Witness for C2 (amended) at concrete crawls of `https://example.com/`. -/
theorem visited_pages_amended_witness :
    ((["https://example.com/", "https://example.com/about"] : List String).length ≤ 11
      ∧ (["https://example.com/", "https://example.com/about"] : List String).Nodup)
    ∧ ((["https://example.com/", "https://example.com/a"] : List String).length ≤ 11
      ∧ (["https://example.com/", "https://example.com/a"] : List String).tail.Nodup) :=
  ⟨visited_pages_amended.1 "https://example.com/" [some "/about"]
      ["https://example.com/", "https://example.com/about"] (by decide),
   visited_pages_amended.2 "https://example.com/" ["/a"]
      ["https://example.com/", "https://example.com/a"] (by decide)⟩

/-- Witness for C3 at a concrete href list with a duplicate. -/
theorem collector_contract_witness :
    (["https://example.com/a"] : List String).length ≤ 10
    ∧ (["https://example.com/a"] : List String).Nodup
    ∧ (["https://example.com/a"] : List String).Sublist
        ([some "/a", some "/a"].filterMap
          (cliStep (urlOrigin ⟨"https", "example.com", "", "/"⟩))) :=
  let h := collector_contract.1 [some "/a", some "/a"] "https://example.com/"
    ⟨"https", "example.com", "", "/"⟩ ["https://example.com/a"]
    (by decide) (by decide)
  ⟨h.1, h.2.1, h.2.2.1⟩

/-- Witness for C4 at the spec's own example. -/
theorem same_origin_only_witness :
    fromSameOrigin (urlOrigin ⟨"https", "example.com", "", "/"⟩)
      ([some "/about"] : List (Option String)).reduceOption
      "https://example.com/about" :=
  same_origin_only.1 [some "/about"] "https://example.com/"
    ⟨"https", "example.com", "", "/"⟩ ["https://example.com/about"]
    (by decide) (by decide) "https://example.com/about" (by decide)

/-- Witness for C5 at a one-record list with unknown size. -/
theorem csv_format_witness :
    saveImageDataToCSV [⟨"u", 1, 2, none, "p"⟩]
      = some (joinSep "\n" ("ImageURL,Width,Height,SizeKB,SourcePage"
          :: List.map csvRow [⟨"u", 1, 2, none, "p"⟩])) :=
  (csv_format [⟨"u", 1, 2, none, "p"⟩] (by decide)).1

/-- Witness for C6 (amended) at the empty record list. -/
theorem empty_csv_amended_witness :
    saveImageDataToCSV [] = none
    ∧ serverCsvWrite [] = some "ImageURL,Width,Height,SizeKB,SourcePage\n" :=
  empty_csv_amended [] rfl

/-- Witness for C7 at the spec's `Content-Length: 51200` example. -/
theorem size_probe_witness :
    getFileSizeInKB "https://example.com/a.png" (.response (some 51200))
      = .resolved (some 50) :=
  (size_probe "https://example.com/a.png" ⟨"https", "example.com", "", "/a.png"⟩
    (by decide)).2.2

/-- Witness for C9 (amended) on both branches. -/
theorem scheme_default_amended_witness :
    finalUrl "http://example.com" = "http://example.com"
    ∧ (finalUrl "example.com" = "https://" ++ "example.com"
      ∧ jsStartsWith (finalUrl "example.com") "https://" = true) :=
  ⟨(scheme_default_amended "http://example.com").1 (by decide),
   (scheme_default_amended "example.com").2 (by decide)⟩

/-- Witness for C10 at concrete form values. -/
theorem scrape_validation_witness :
    handleScrape (some " \t ") = .error 400
    ∧ handleScrape (some "  ") = .error 400
    ∧ handleScrape (some " example.com ") = .ok (finalUrl (jsTrim " example.com ")) :=
  ⟨scrape_validation.2.1 " \t " (by decide),
   scrape_validation.2.2.1 "  " (by decide),
   scrape_validation.2.2.2 " example.com " (by decide)⟩

end ScrapeMe
